import Mathlib

/-!
Shallow embedding of `src/ovisbot/extensions/cryptohack.py`.

The module links Discord users to CryptoHack accounts, fetches their
scores from the remote CryptoHack API and renders a scoreboard.  Pure
logic (string parsing, sanitization, sorting, control flow on decoded
responses) is embedded directly; network and Discord I/O are modelled
as oracles (functions supplied as parameters) and the decoded JSON
body of the token endpoint is modelled as an association list.
-/

namespace CryptoHackExt

/-! ### Python primitives used by the source -/

/-- Characters stripped by Python `int(str)` around the numeral
(ASCII whitespace as recognised by `str.strip`). -/
def isPySpace (c : Char) : Bool :=
  c = ' ' || c = '\t' || c = '\n' || c = '\x0d' || c = '\x0b' || c = '\x0c'

/-- Value of a decimal digit character. -/
def digitVal (c : Char) : Nat := c.toNat - 48

/-- Consumes the remainder of a Python integer literal after the first
digit: further digits, with single underscores allowed between digits. -/
def digitsCore (acc : Nat) (cs : List Char) : Option Nat :=
  match cs with
  | [] => some acc
  | c :: rest =>
    if c.isDigit then digitsCore (10 * acc + digitVal c) rest
    else if c = '_' then
      match rest with
      | [] => none
      | c2 :: rest2 =>
        if c2.isDigit then digitsCore (10 * acc + digitVal c2) rest2
        else none
    else none

/-- A nonempty digit sequence (underscore separators allowed), as
accepted by Python `int` after sign and whitespace handling. -/
def digitSeq (cs : List Char) : Option Nat :=
  match cs with
  | [] => none
  | c :: rest => if c.isDigit then digitsCore (digitVal c) rest else none

/-- Embedding of Python `int(s)` for `str` arguments in base 10:
strips surrounding whitespace, accepts an optional sign, then a
nonempty digit sequence with optional underscore separators; `none`
models the `ValueError` raised on any other input. -/
def pyInt (s : String) : Option Int :=
  let cs := ((s.data.dropWhile isPySpace).reverse.dropWhile isPySpace).reverse
  match cs with
  | [] => none
  | c :: rest =>
    if c = '+' then (digitSeq rest).map Int.ofNat
    else if c = '-' then (digitSeq rest).map (fun n => -(n : Int))
    else (digitSeq (c :: rest)).map Int.ofNat

/-- Python `str.replace(pat, "")` for a single-character pattern:
removes every occurrence of that character. -/
def pyRemoveChar (s : String) (c : Char) : String :=
  ⟨s.data.filter (fun d => d ≠ c)⟩

/-! ### Errors

The Python code signals failures through exceptions; `BotError` covers
every exception kind reachable from the embedded code paths. -/

/-- Exceptions raised by the embedded code: `CryptoHackApiException`
(with the optional message it was constructed with), the model-store
`DoesNotExist`, the `assert` in `Score.parse`, the `ValueError` from
`int`, and `KeyError` from a missing dict key. -/
inductive BotError where
  | apiException (msg : Option String)
  | doesNotExist
  | assertionError
  | valueError
  | keyError
  deriving DecidableEq, Repr

/-- Splitting a character list at every `':'`, embedding Python
`raw.split(":")` for the single-character separator: no collapsing of
adjacent separators, and the empty string yields `[[]]`. -/
def splitColons (cs : List Char) : List (List Char) :=
  match cs with
  | [] => [[]]
  | c :: rest =>
    let r := splitColons rest
    if c = ':' then [] :: r
    else
      match r with
      | [] => [[c]]
      | g :: gs => (c :: g) :: gs

/-- Python `raw.split(":")` on strings. -/
def pySplitColon (s : String) : List String :=
  (splitColons s.data).map (fun g => ⟨g⟩)

/-! ### `Score` and `Score.parse` -/

/-- The `Score` dataclass. -/
structure Score where
  username : String
  global_rank : Int
  points : Int
  total_points : Int
  challs_solved : Int
  total_challs : Int
  num_users : Int
  deriving DecidableEq, Repr

/-- Embedding of `Score.parse`: splits on `":"`, asserts exactly 7 fields, takes the
first verbatim as `username` and converts the remaining 6 with `int`.
A wrong field count raises `AssertionError`; a failed conversion
raises `ValueError`. -/
def Score.parse (raw : String) : Except BotError Score :=
  match pySplitColon raw with
  | [u, s1, s2, s3, s4, s5, s6] =>
    match pyInt s1, pyInt s2, pyInt s3, pyInt s4, pyInt s5, pyInt s6 with
    | some a, some b, some c, some d, some e, some f =>
      .ok ⟨u, a, b, c, d, e, f⟩
    | _, _, _, _, _, _ => .error .valueError
  | _ => .error .assertionError

/-! ### Remote score client -/

/-- Does `l` begin with `pat`? -/
def beginsWith : List Char → List Char → Bool
  | [], _ => true
  | _ :: _, [] => false
  | c :: cs, d :: ds => c = d && beginsWith cs ds

/-- Does `pat` occur as a contiguous run inside `l`? -/
def occursIn (pat : List Char) : List Char → Bool
  | [] => beginsWith pat []
  | l@(_ :: rest) => beginsWith pat l || occursIn pat rest

/-- Substring test, embedding Python `"failed" in res`. -/
def containsFailed (res : String) : Bool :=
  occursIn "failed".data res.data

/-- Embedding of `CryptoHack._get_cryptohack_score`, applied to the raw response
text `res` of the userscore endpoint: raises `CryptoHackApiException`
(no message) when the body contains `"failed"`, otherwise parses it. -/
def get_cryptohack_score (res : String) : Except BotError Score :=
  if containsFailed res then .error (.apiException none)
  else Score.parse res

/-! ### Token sanitization (from `connect`) -/

/-- The sanitization line of `connect`:
`token.replace("/", "").replace(".", "").replace("%", "")`. -/
def sanitizeToken (token : String) : String :=
  pyRemoveChar (pyRemoveChar (pyRemoveChar token '/') '.') '%'

/-! ### Account mapping store

The persistence model `CryptoHackUserMapping` lives in
`ovisbot/db_models.py`, which is not part of the sources; its contract
is taken from the spec.  A store is a sequence of
`(discord_user_id, cryptohack_user)` records in insertion order. -/

/-- Account mapping store state. -/
abbrev Store := List (Nat × String)

/-- Modelled from the spec: the store's `upsert(chat_user_id,
remote_username)` operation of the missing `CryptoHackUserMapping`
model — create-or-replace keyed by `chat_user_id`. -/
def upsert (store : Store) (uid : Nat) (user : String) : Store :=
  match store with
  | [] => [(uid, user)]
  | m :: rest => if m.1 = uid then (uid, user) :: rest else m :: upsert rest uid user

/-- Modelled from the spec: the store's `get(chat_user_id)` lookup of
the missing `CryptoHackUserMapping` model; `none` models the
`DoesNotExist` outcome. -/
def storeGet (store : Store) (uid : Nat) : Option String :=
  (store.find? (fun m => m.1 == uid)).map (fun m => m.2)

/-! ### `connect` -/

/-- Key lookup in the decoded JSON object of the token endpoint
(embedding `"error" in res` / `res["user"]` on a Python dict). -/
def lookupKey (body : List (String × String)) (k : String) : Option String :=
  (body.find? (fun p => p.1 == k)).map (fun p => p.2)

/-- Observable outcome of `connect`. -/
inductive ConnectOutcome where
  | guidance
  | linked (user : String) (store : Store)
  | err (e : BotError)
  deriving DecidableEq, Repr

/-- Identity-resolution part of `connect`, applied to the decoded JSON
body: raises `CryptoHackApiException(res["error"])` when the body has
an `"error"` key, otherwise reads `res["user"]` and saves the mapping. -/
def connectWithBody (body : List (String × String)) (store : Store) (uid : Nat) :
    ConnectOutcome :=
  match lookupKey body "error" with
  | some msg => .err (.apiException (some msg))
  | none =>
    match lookupKey body "user" with
    | some u => .linked u (upsert store uid u)
    | none => .err .keyError

/-- Embedding of `CryptoHack.connect`.  `resolve` is the oracle for
the token endpoint: it maps the URL path segment actually sent (the
sanitized token) to the decoded JSON body of the response. -/
def connect (resolve : String → List (String × String)) (store : Store)
    (uid : Nat) (token : Option String) : ConnectOutcome :=
  match token with
  | none => .guidance
  | some t => connectWithBody (resolve (sanitizeToken t)) store uid

/-! ### `stats` -/

/-- Observable outcome of `stats`: a silent return, a raised error, or
a sent embed carrying the score. -/
inductive StatsOutcome where
  | silent
  | err (e : BotError)
  | sent (s : Score)
  deriving DecidableEq, Repr

/-- Embedding of `CryptoHack.stats`.  `responses` is the oracle for
the userscore endpoint (cryptohack username to raw response text);
`mentions` is the list of user ids mentioned in the message. -/
def stats (responses : String → String) (store : Store) (authorId : Nat)
    (mentions : List Nat) (user : Option String) : StatsOutcome :=
  let uid? : Option Nat :=
    match user with
    | none => some authorId
    | some _ => mentions.head?
  match uid? with
  | none => .silent
  | some uid =>
    match storeGet store uid with
    | none => .err .doesNotExist
    | some chUser =>
      match get_cryptohack_score (responses chUser) with
      | .error e => .err e
      | .ok s => .sent s

/-! ### `scoreboard` -/

/-- One iteration of the scoreboard list comprehension: resolve the
display name and fetch the score for a single mapping.  `displayName`
is the oracle for `escape_md(self.bot.get_user(id).name)`. -/
def fetchEntry (responses : String → String) (displayName : Nat → String)
    (m : Nat × String) : Except BotError (String × Score) :=
  match get_cryptohack_score (responses m.2) with
  | .error e => .error e
  | .ok s => .ok (displayName m.1, s)

/-- The scoreboard list comprehension over all mappings, in storage
order; the first raised error aborts the whole batch. -/
def fetchAll (responses : String → String) (displayName : Nat → String) :
    List (Nat × String) → Except BotError (List (String × Score))
  | [] => .ok []
  | m :: rest =>
    match fetchEntry responses displayName m with
    | .error e => .error e
    | .ok p =>
      match fetchAll responses displayName rest with
      | .error e => .error e
      | .ok ps => .ok (p :: ps)

/-- The sorting line of `scoreboard`:
`sorted(scores, key=lambda s: s[1].points, reverse=True)` — Python's
stable sort with the comparisons on the key reversed. -/
def sortStep (scores : List (String × Score)) : List (String × Score) :=
  scores.mergeSort (fun a b => decide (b.2.points ≤ a.2.points))

/-- Score-collection part of `CryptoHack.scoreboard`, with the slice
bound as a parameter: build the `(display_name, score)` list over all
mappings, slice to the first `limit`, then sort. -/
def scoreboardScores (responses : String → String) (displayName : Nat → String)
    (mappings : List (Nat × String)) (limit : Nat) :
    Except BotError (List (String × Score)) :=
  match fetchAll responses displayName mappings with
  | .error e => .error e
  | .ok scores => .ok (sortStep (scores.take limit))

/-- Embedding of `CryptoHack.scoreboard`'s score collection with the
source's hard-coded `limit = 10`. -/
def scoreboard (responses : String → String) (displayName : Nat → String)
    (mappings : List (Nat × String)) : Except BotError (List (String × Score)) :=
  scoreboardScores responses displayName mappings 10

/-! ### Error handler -/

/-- Embedding of `CryptoHack.generic_error_handler`: the message sent
to the channel for each raised error (`none` when the handler sends
nothing). -/
def generic_error_handler (e : BotError) : Option String :=
  match e with
  | .doesNotExist =>
    some "Ρε λεβεντη... εν βρίσκω συνδεδεμένο CryptoHack account! (`!cryptohack connect <token>`)"
  | .apiException _ => some "Ούπς... κατι επήε λάθος ρε τσιάκκο!"
  | _ => none

/-! ### Specification-side vocabulary

Definitions used only to state claims (never to define behavior). -/

/-- A plain decimal numeral: nonempty, digits only.  This is the
spec's notion of a numeric trailing field. -/
def isDecNumeral (s : String) : Bool :=
  !s.data.isEmpty && s.data.all Char.isDigit

/-- Value of a plain decimal numeral. -/
def decVal (s : String) : Nat :=
  s.data.foldl (fun a c => 10 * a + digitVal c) 0

/-! ### Lemmas about `pyInt` on decimal numerals -/

theorem isPySpace_eq_false_of_isDigit (c : Char) (hc : c.isDigit = true) :
    isPySpace c = false := by
  by_contra h
  rw [Bool.not_eq_false] at h
  simp only [isPySpace, Bool.or_eq_true, decide_eq_true_eq] at h
  rcases h with ((((h | h) | h) | h) | h) | h <;> subst h <;> exact absurd hc (by decide)

theorem dropWhile_pySpace_of_digits (cs : List Char)
    (h : ∀ c ∈ cs, c.isDigit = true) : cs.dropWhile isPySpace = cs := by
  cases cs with
  | nil => rfl
  | cons c rest =>
    rw [List.dropWhile_cons]
    rw [isPySpace_eq_false_of_isDigit c (h c (List.mem_cons_self c rest))]
    simp

theorem digitsCore_digits (cs : List Char) (h : ∀ c ∈ cs, c.isDigit = true)
    (acc : Nat) :
    digitsCore acc cs = some (cs.foldl (fun a c => 10 * a + digitVal c) acc) := by
  induction cs generalizing acc with
  | nil => rfl
  | cons c rest ih =>
    have hc : c.isDigit = true := h c (List.mem_cons_self c rest)
    rw [digitsCore.eq_def]
    simp only [hc, if_true, List.foldl_cons]
    exact ih (fun d hd => h d (List.mem_cons_of_mem c hd)) _

theorem pyInt_decNumeral (s : String) (h : isDecNumeral s = true) :
    pyInt s = some (Int.ofNat (decVal s)) := by
  rw [isDecNumeral, Bool.and_eq_true] at h
  obtain ⟨hne, hall⟩ := h
  rw [List.all_eq_true] at hall
  have hallrev : ∀ c ∈ s.data.reverse, c.isDigit = true := by
    intro c hcmem
    exact hall c (List.mem_reverse.mp hcmem)
  rw [pyInt]
  rw [dropWhile_pySpace_of_digits s.data hall,
      dropWhile_pySpace_of_digits s.data.reverse hallrev,
      List.reverse_reverse]
  cases hd : s.data with
  | nil => rw [hd] at hne; exact absurd hne (by decide)
  | cons c rest =>
    have hc : c.isDigit = true := hall c (hd ▸ List.mem_cons_self c rest)
    have hplus : ¬(c = '+') := fun hcp => absurd (hcp ▸ hc) (by decide)
    have hminus : ¬(c = '-') := fun hcm => absurd (hcm ▸ hc) (by decide)
    simp only [hplus, hminus, if_false, ite_false, digitSeq.eq_def, hc, if_true, ite_true]
    rw [digitsCore_digits rest (fun d hdm => hall d (hd ▸ List.mem_cons_of_mem c hdm))]
    rw [decVal, hd, List.foldl_cons]
    have h0 : 10 * 0 + digitVal c = digitVal c := by omega
    rw [h0]
    rfl

/-- C1: for every raw string splitting on `":"` into exactly 7
segments whose last 6 are decimal numerals, `Score.parse` returns a
record with the first segment verbatim as `username` and the six
numeric values in the fixed order `global_rank, points, total_points,
challs_solved, total_challs, num_users`. -/
theorem parse_wellformed_seven_fields
    (raw u a b c d e f : String)
    (hs : pySplitColon raw = [u, a, b, c, d, e, f])
    (ha : isDecNumeral a = true) (hb : isDecNumeral b = true)
    (hc : isDecNumeral c = true) (hd : isDecNumeral d = true)
    (he : isDecNumeral e = true) (hf : isDecNumeral f = true) :
    Score.parse raw =
      .ok ⟨u, Int.ofNat (decVal a), Int.ofNat (decVal b), Int.ofNat (decVal c),
           Int.ofNat (decVal d), Int.ofNat (decVal e), Int.ofNat (decVal f)⟩ := by
  rw [Score.parse, hs]
  simp only [pyInt_decNumeral a ha, pyInt_decNumeral b hb, pyInt_decNumeral c hc,
      pyInt_decNumeral d hd, pyInt_decNumeral e he, pyInt_decNumeral f hf]

/-- C1 witness: the spec scenario `"alice:3:900:1000:9:10:500"`. -/
theorem parse_wellformed_seven_fields_witness :
    Score.parse "alice:3:900:1000:9:10:500" =
      .ok ⟨"alice", 3, 900, 1000, 9, 10, 500⟩ :=
  parse_wellformed_seven_fields "alice:3:900:1000:9:10:500"
    "alice" "3" "900" "1000" "9" "10" "500"
    (by decide) (by decide) (by decide) (by decide) (by decide) (by decide) (by decide)


/-! ### C2 -/

/-- C2 counterexample: `"-1"` is not a non-negative decimal numeral,
yet `Score.parse` accepts the 7-field string `"a:-1:0:0:0:0:0"` and
returns a record with a negative `global_rank` instead of failing. -/
theorem parse_negative_segment_accepted :
    isDecNumeral "-1" = false ∧
    Score.parse "a:-1:0:0:0:0:0" = .ok ⟨"a", -1, 0, 0, 0, 0, 0⟩ := by
  constructor
  · decide
  · rfl

/-- C2 amended: `Score.parse` fails exactly on the inputs rejected by
the code — a colon-split of length other than 7 fails the assertion,
and a trailing segment rejected by Python `int` conversion (which
does accept signs, surrounding whitespace and underscore separators,
so such segments do not cause failure) raises the conversion error. -/
theorem parse_malformed (raw : String) :
    ((pySplitColon raw).length ≠ 7 → Score.parse raw = .error .assertionError) ∧
    (∀ u a b c d e f, pySplitColon raw = [u, a, b, c, d, e, f] →
      (pyInt a = none ∨ pyInt b = none ∨ pyInt c = none ∨ pyInt d = none ∨
        pyInt e = none ∨ pyInt f = none) →
      Score.parse raw = .error .valueError) := by
  constructor
  · intro hlen
    rw [Score.parse]
    rcases hsp : pySplitColon raw with
        _ | ⟨u, _ | ⟨a, _ | ⟨b, _ | ⟨c, _ | ⟨d, _ | ⟨e, _ | ⟨f, _ | ⟨g, rest⟩⟩⟩⟩⟩⟩⟩⟩ <;>
      first
        | rfl
        | (exfalso; rw [hsp] at hlen; exact hlen rfl)
  · intro u a b c d e f hsp hnone
    rw [Score.parse, hsp]
    rcases hA : pyInt a with _ | va <;> rcases hB : pyInt b with _ | vb <;>
      rcases hC : pyInt c with _ | vc <;> rcases hD : pyInt d with _ | vd <;>
      rcases hE : pyInt e with _ | ve <;> rcases hF : pyInt f with _ | vf <;>
      simp_all

/-- C2 witness: a 2-field string fails the field-count assertion, and
a 7-field string with the non-numeric segment `"x"` fails conversion. -/
theorem parse_malformed_witness :
    Score.parse "a:b" = .error .assertionError ∧
    Score.parse "a:x:0:0:0:0:0" = .error .valueError :=
  ⟨(parse_malformed "a:b").1 (by decide),
   (parse_malformed "a:x:0:0:0:0:0").2 "a" "x" "0" "0" "0" "0" "0" (by decide)
     (Or.inl (by decide))⟩

/-! ### C3 -/

/-- C3: whenever the raw userscore response contains the literal
marker `"failed"`, `_get_cryptohack_score` raises the API exception
before any parsing: the result is the `CryptoHackApiException` error
for every such response, including ones `Score.parse` would accept or
reject for its own reasons. -/
theorem fetch_failed_marker (res : String) (h : containsFailed res = true) :
    get_cryptohack_score res = .error (.apiException none) := by
  rw [get_cryptohack_score, if_pos h]

/-- C3 witness: the spec scenario `"bob:failed:score:lookup"`. -/
theorem fetch_failed_marker_witness :
    get_cryptohack_score "bob:failed:score:lookup" = .error (.apiException none) :=
  fetch_failed_marker "bob:failed:score:lookup" (by decide)


/-! ### C4 -/

/-- Concrete userscore oracle for the fetch-order analysis: the
cryptohack user `"bad"` gets a response carrying the failure marker,
every other user a well-formed score string. -/
def cexResponses (u : String) : String :=
  if u = "bad" then "failed" else "x:1:2:3:4:5:6"

/-- Concrete display-name oracle. -/
def cexName (_ : Nat) : String := "n"

/-- The score parsed from `"x:1:2:3:4:5:6"`. -/
def cexScore : Score := ⟨"x", 1, 2, 3, 4, 5, 6⟩

/-- Eleven mappings: ten fetchable users followed by `"bad"`, whose
position is beyond the scoreboard bound of 10. -/
def cexMappings : List (Nat × String) :=
  [(0, "u"), (1, "u"), (2, "u"), (3, "u"), (4, "u"), (5, "u"), (6, "u"),
   (7, "u"), (8, "u"), (9, "u"), (10, "bad")]

theorem fetchAll_error_of_mem (responses : String → String)
    (displayName : Nat → String) (mappings : List (Nat × String))
    (m : Nat × String) (hm : m ∈ mappings) (e : BotError)
    (he : fetchEntry responses displayName m = .error e) :
    ∃ e2, fetchAll responses displayName mappings = .error e2 := by
  induction mappings with
  | nil => cases hm
  | cons m0 rest ih =>
    rcases List.mem_cons.mp hm with hm0 | hmrest
    · subst hm0
      exact ⟨e, by simp [fetchAll, he]⟩
    · obtain ⟨e2, ih2⟩ := ih hmrest
      cases h0 : fetchEntry responses displayName m0 with
      | error e0 => exact ⟨e0, by simp [fetchAll, h0]⟩
      | ok p => exact ⟨e2, by simp [fetchAll, h0, ih2]⟩

/-- C4 counterexample: with eleven mapped users whose eleventh score
fetch fails, the whole scoreboard operation fails even though the
bound is 10 — a fetch is performed for a mapping beyond the first
`limit` mappings (restricted to the first ten mappings the same
operation succeeds), refuting that the bound is applied before
fetching. -/
theorem scoreboard_fetches_beyond_limit :
    scoreboard cexResponses cexName cexMappings = .error (.apiException none) ∧
    scoreboardScores cexResponses cexName (cexMappings.take 10) 10 =
      .ok (sortStep ((List.replicate 10 ("n", cexScore)).take 10)) := by
  constructor
  · rfl
  · rfl

/-- C4 amended: the bound is applied after fetching, not before — the
scoreboard fetches a score for every stored mapping (so a failing
fetch anywhere in the mapping list, even beyond position `limit`,
fails the whole operation), and only the first `limit` fetched
entries, in storage order, are then ranked; hence the displayed top-N
may still not be the true top-N of the full mapped population. -/
theorem scoreboard_limit_after_fetch (responses : String → String)
    (displayName : Nat → String) (mappings : List (Nat × String)) (limit : Nat) :
    (∀ scores, fetchAll responses displayName mappings = .ok scores →
      scoreboardScores responses displayName mappings limit =
        .ok (sortStep (scores.take limit))) ∧
    (∀ m, m ∈ mappings → ∀ e, fetchEntry responses displayName m = .error e →
      ∃ e2, scoreboardScores responses displayName mappings limit = .error e2) := by
  constructor
  · intro scores hok
    rw [scoreboardScores, hok]
  · intro m hm e he
    obtain ⟨e2, h2⟩ := fetchAll_error_of_mem responses displayName mappings m hm e he
    exact ⟨e2, by rw [scoreboardScores, h2]⟩

/-- C4 witness: both halves of the amended statement at the concrete
eleven-mapping store. -/
theorem scoreboard_limit_after_fetch_witness :
    scoreboardScores cexResponses cexName (cexMappings.take 10) 10 =
      .ok (sortStep ((List.replicate 10 ("n", cexScore)).take 10)) ∧
    (∃ e2, scoreboardScores cexResponses cexName cexMappings 10 = .error e2) :=
  ⟨(scoreboard_limit_after_fetch cexResponses cexName (cexMappings.take 10) 10).1
      (List.replicate 10 ("n", cexScore)) rfl,
   (scoreboard_limit_after_fetch cexResponses cexName cexMappings 10).2
      (10, "bad") (by decide) (.apiException none) rfl⟩

/-! ### C5 -/

/-- C5: the scoreboard's sorting step (applied to the successfully
fetched `(display_name, score)` pairs that survive the slice) yields
a sequence ordered by `points` descending, and is stable: for every
points value, the entries carrying it appear in the same relative
order as in the fetch-order input. -/
theorem scoreboard_sorted_stable (l : List (String × Score)) :
    (sortStep l).Pairwise (fun a b => b.2.points ≤ a.2.points) ∧
    (∀ p : Int, (sortStep l).filter (fun s => s.2.points == p) =
      l.filter (fun s => s.2.points == p)) := by
  have htrans : ∀ a b c : String × Score,
      decide (b.2.points ≤ a.2.points) → decide (c.2.points ≤ b.2.points) →
      decide (c.2.points ≤ a.2.points) := by
    intro a b c hab hbc
    rw [decide_eq_true_eq] at *
    exact le_trans hbc hab
  have htotal : ∀ a b : String × Score,
      decide (b.2.points ≤ a.2.points) || decide (a.2.points ≤ b.2.points) := by
    intro a b
    rcases Int.le_total b.2.points a.2.points with h | h
    · simp [h]
    · simp [h]
  constructor
  · have := List.sorted_mergeSort htrans htotal l
    exact this.imp (fun hab => decide_eq_true_eq.mp hab)
  · intro p
    set pred : String × Score → Bool := fun s => s.2.points == p with hpred
    have hmemp : ∀ x ∈ l.filter pred, x.2.points = p := by
      intro x hx
      have := (List.mem_filter.mp hx).2
      rw [hpred] at this
      exact beq_iff_eq.mp this
    have hpw : (l.filter pred).Pairwise
        (fun a b => decide (b.2.points ≤ a.2.points) = true) := by
      refine List.pairwise_of_forall_mem_list ?_
      intro a ha b hb
      rw [decide_eq_true_eq, hmemp a ha, hmemp b hb]
    have hsub : List.Sublist (l.filter pred) (sortStep l) :=
      List.sublist_mergeSort htrans htotal hpw (List.filter_sublist l)
    have hsub2 : List.Sublist (l.filter pred) ((sortStep l).filter pred) := by
      have hself : (l.filter pred).filter pred = l.filter pred := by
        rw [List.filter_eq_self]
        intro a ha
        exact (List.mem_filter.mp ha).2
      have := hsub.filter pred
      rw [hself] at this
      exact this
    have hperm : List.Perm ((sortStep l).filter pred) (l.filter pred) :=
      (List.mergeSort_perm l _).filter pred
    exact (hsub2.eq_of_length hperm.length_eq.symm).symm


/-! ### C6 -/

/-- C6 counterexample: sanitizing the token `"../../etc"` does not
give `"etcetc"` (it strips the four dots and two slashes, leaving
`"etc"`). -/
theorem sanitize_path_token_cex : sanitizeToken "../../etc" ≠ "etcetc" := by
  decide

/-- C6 amended: the sanitized token forwarded to the
identity-resolution call for input `"../../etc"` is `"etc"` — the
value `connect` hands to the token-endpoint oracle. -/
theorem sanitize_path_token_scenario :
    sanitizeToken "../../etc" = "etc" ∧
    ∀ (resolve : String → List (String × String)) (store : Store) (uid : Nat),
      connect resolve store uid (some "../../etc") =
        connectWithBody (resolve "etc") store uid := by
  constructor
  · decide
  · intro resolve store uid
    show connectWithBody (resolve (sanitizeToken "../../etc")) store uid = _
    rw [show sanitizeToken "../../etc" = "etc" from by decide]

/-! ### C7 -/

/-- C7: sanitization is total (a plain function) and idempotent, and
its output contains none of the stripped characters. -/
theorem sanitize_total_idempotent (t : String) :
    sanitizeToken (sanitizeToken t) = sanitizeToken t ∧
    ∀ c ∈ (sanitizeToken t).data, c ≠ '/' ∧ c ≠ '.' ∧ c ≠ '%' := by
  have hmem : ∀ c ∈ (sanitizeToken t).data, c ≠ '/' ∧ c ≠ '.' ∧ c ≠ '%' := by
    intro c hcm
    simp only [sanitizeToken, pyRemoveChar, List.mem_filter, decide_eq_true_eq] at hcm
    exact ⟨hcm.1.1.2, hcm.1.2, hcm.2⟩
  have hfix : ∀ (s : String) (ch : Char), (∀ c ∈ s.data, c ≠ ch) →
      pyRemoveChar s ch = s := by
    intro s ch h
    rw [pyRemoveChar]
    apply String.ext
    show s.data.filter _ = s.data
    rw [List.filter_eq_self]
    intro a ha
    exact decide_eq_true (h a ha)
  refine ⟨?_, hmem⟩
  rw [show sanitizeToken (sanitizeToken t) =
      pyRemoveChar (pyRemoveChar (pyRemoveChar (sanitizeToken t) '/') '.') '%' from rfl]
  rw [hfix (sanitizeToken t) '/' (fun c hc => (hmem c hc).1),
      hfix (sanitizeToken t) '.' (fun c hc => (hmem c hc).2.1),
      hfix (sanitizeToken t) '%' (fun c hc => (hmem c hc).2.2)]

/-! ### C8 -/

theorem mem_keys_upsert (store : Store) (uid x : Nat) (u : String)
    (h : x ∈ (upsert store uid u).map Prod.fst) :
    x = uid ∨ x ∈ store.map Prod.fst := by
  induction store with
  | nil =>
    rw [upsert] at h
    simp at h
    exact Or.inl h
  | cons m rest ih =>
    rw [upsert] at h
    by_cases hm : m.1 = uid
    · rw [if_pos hm, List.map_cons, List.mem_cons] at h
      rcases h with h | h
      · exact Or.inl h
      · exact Or.inr (List.mem_cons_of_mem _ h)
    · rw [if_neg hm, List.map_cons, List.mem_cons] at h
      rcases h with h | h
      · subst h
        exact Or.inr (List.mem_cons_self _ _)
      · rcases ih h with h2 | h2
        · exact Or.inl h2
        · exact Or.inr (List.mem_cons_of_mem _ h2)

theorem upsert_keys_nodup (store : Store) (uid : Nat) (u : String)
    (h : (store.map Prod.fst).Nodup) :
    ((upsert store uid u).map Prod.fst).Nodup := by
  induction store with
  | nil => simp [upsert]
  | cons m rest ih =>
    rw [List.map_cons, List.nodup_cons] at h
    rw [upsert]
    by_cases hm : m.1 = uid
    · rw [if_pos hm, List.map_cons, List.nodup_cons]
      exact ⟨hm ▸ h.1, h.2⟩
    · rw [if_neg hm, List.map_cons, List.nodup_cons]
      refine ⟨?_, ih h.2⟩
      intro hmem
      rcases mem_keys_upsert rest uid m.1 u hmem with h2 | h2
      · exact hm h2
      · exact h.1 h2

theorem upsert_filter_self (store : Store) (uid : Nat) (u : String)
    (h : (store.map Prod.fst).Nodup) :
    (upsert store uid u).filter (fun m => m.1 == uid) = [(uid, u)] := by
  induction store with
  | nil => simp [upsert]
  | cons m rest ih =>
    rw [List.map_cons, List.nodup_cons] at h
    rw [upsert]
    by_cases hm : m.1 = uid
    · rw [if_pos hm, List.filter_cons]
      simp only [beq_self_eq_true, if_true]
      have hrest : rest.filter (fun m => m.1 == uid) = [] := by
        rw [List.filter_eq_nil_iff]
        intro a ha hpa
        have : a.1 = uid := by
          have := hpa
          simpa using this
        exact h.1 (hm ▸ this ▸ List.mem_map_of_mem Prod.fst ha)
      rw [hrest]
    · rw [if_neg hm, List.filter_cons]
      have : (m.1 == uid) = false := by
        exact beq_eq_false_iff_ne.mpr hm
      rw [this]
      simp only [Bool.false_eq_true, if_false]
      exact ih h.2

/-- Concrete token-endpoint oracle for the linking witness: the token
`"t1"` resolves to the remote user `"alice"`, everything else to
`"bob"`. -/
def cexResolve (s : String) : List (String × String) :=
  if s = "t1" then [("user", "alice")] else [("user", "bob")]

/-- C8: linking is create-or-replace keyed by the chat user id — when
the store holds at most one mapping per id, linking the same id twice
with two successfully-resolving tokens performs two upserts, after
which exactly one mapping exists for that id, it carries the remote
username resolved from the second token, and the at-most-one-per-id
invariant still holds. -/
theorem link_last_write_wins
    (resolve : String → List (String × String)) (store : Store) (uid : Nat)
    (t1 t2 u1 u2 : String)
    (hinv : (store.map Prod.fst).Nodup)
    (h1e : lookupKey (resolve (sanitizeToken t1)) "error" = none)
    (h1u : lookupKey (resolve (sanitizeToken t1)) "user" = some u1)
    (h2e : lookupKey (resolve (sanitizeToken t2)) "error" = none)
    (h2u : lookupKey (resolve (sanitizeToken t2)) "user" = some u2) :
    connect resolve store uid (some t1) = .linked u1 (upsert store uid u1) ∧
    connect resolve (upsert store uid u1) uid (some t2) =
      .linked u2 (upsert (upsert store uid u1) uid u2) ∧
    (upsert (upsert store uid u1) uid u2).filter (fun m => m.1 == uid) =
      [(uid, u2)] ∧
    ((upsert (upsert store uid u1) uid u2).map Prod.fst).Nodup := by
  refine ⟨?_, ?_, ?_, ?_⟩
  · show connectWithBody (resolve (sanitizeToken t1)) store uid = _
    simp only [connectWithBody, h1e, h1u]
  · show connectWithBody (resolve (sanitizeToken t2)) (upsert store uid u1) uid = _
    simp only [connectWithBody, h2e, h2u]
  · exact upsert_filter_self _ uid u2 (upsert_keys_nodup store uid u1 hinv)
  · exact upsert_keys_nodup _ uid u2 (upsert_keys_nodup store uid u1 hinv)

/-- C8 witness: linking id 1 with `"t1"` then `"t2"` on the empty
store ends with the single mapping `(1, "bob")`. -/
theorem link_last_write_wins_witness :
    connect cexResolve [] 1 (some "t1") = .linked "alice" (upsert [] 1 "alice") ∧
    connect cexResolve (upsert [] 1 "alice") 1 (some "t2") =
      .linked "bob" (upsert (upsert [] 1 "alice") 1 "bob") ∧
    (upsert (upsert [] 1 "alice") 1 "bob").filter (fun m => m.1 == 1) =
      [(1, "bob")] ∧
    ((upsert (upsert [] 1 "alice") 1 "bob").map Prod.fst).Nodup :=
  link_last_write_wins cexResolve [] 1 "t1" "t2" "alice" "bob" (by simp) rfl rfl rfl rfl

/-! ### C9 -/

/-- C9 counterexample: a token-resolution response with error message
`"bad token"` raises the API exception carrying that message, but the
message displayed by the error handler is not the remote-supplied
message. -/
theorem resolve_error_display_cex :
    connectWithBody [("error", "bad token")] [] 0 =
      .err (.apiException (some "bad token")) ∧
    generic_error_handler (.apiException (some "bad token")) ≠ some "bad token" := by
  constructor
  · rfl
  · decide

/-- C9 amended: when the identity-resolution body contains an error
indicator, the operation fails with the API exception carrying the
remote-supplied message, but the message displayed to the user is the
same generic failure message shown for score-fetch failures (which
raise the exception without a message), not the remote-supplied text. -/
theorem resolve_error_generic_display (body : List (String × String))
    (store : Store) (uid : Nat) (msg : String)
    (h : lookupKey body "error" = some msg) :
    connectWithBody body store uid = .err (.apiException (some msg)) ∧
    generic_error_handler (.apiException (some msg)) =
      generic_error_handler (.apiException none) := by
  constructor
  · simp only [connectWithBody, h]
  · rfl

/-- C9 witness: the concrete error body `"bad token"`. -/
theorem resolve_error_generic_display_witness :
    connectWithBody [("error", "bad token")] [] 0 =
      .err (.apiException (some "bad token")) ∧
    generic_error_handler (.apiException (some "bad token")) =
      generic_error_handler (.apiException none) :=
  resolve_error_generic_display [("error", "bad token")] [] 0 "bad token" rfl

/-! ### C10 -/

/-- C10: when `stats` is invoked with a user argument but the message
carries no resolvable mention, the command returns silently — for
every store and every remote-response oracle the outcome is `silent`,
so no score fetch result or error is observable, no message is sent,
and the store is untouched (the embedded `stats` never writes it). -/
theorem stats_user_without_mention_silent (responses : String → String)
    (store : Store) (authorId : Nat) (s : String) :
    stats responses store authorId [] (some s) = .silent := rfl

end CryptoHackExt
